import Mathlib

/-!
Verification of the RealityPatch orchestration core and claim graph.

The definitions below are a shallow embedding of the orchestrator in
`src/orchestrator.py` (class `RealityPatchOrchestrator`) and of the claim
graph in `src/claim_graph.py` (class `ClaimGraph`).  Python floats are
modelled as rationals in the orchestrator arithmetic, and as reals where
the TF-IDF similarity pipeline (logarithms, square roots) requires them.
Python dictionaries carrying graph attributes are modelled as association
lists, and Python truthiness of optional strings (None and the empty
string are falsy) is modelled explicitly.
-/

namespace RealityPatch

/-- Verdict levels, from the `VerdictLevel` enum of `orchestrator.py`. -/
inductive VerdictLevel where
  | highConfidence
  | moderateConfidence
  | lowConfidence
  | insufficientData
  | conflicting
  deriving DecidableEq, Repr

/-- Analyzer weights, from the `AnalysisWeight` dataclass of `orchestrator.py`. -/
structure AnalysisWeight where
  clarity : ℚ
  media : ℚ
  context : ℚ
  deriving DecidableEq, Repr

/-- The default weights installed by the orchestrator constructor
(clarity 0.4, media 0.3, context 0.3). -/
def defaultWeights : AnalysisWeight := ⟨0.4, 0.3, 0.3⟩

/-- One analyzer result dictionary as consumed by
`_calculate_overall_verdict`: a `status` tag and the confidence value read
from the per-kind key (`confidence` for clarity, `confidence_score` for
media, `confidence_bias` for context).  The field is optional because the
code reads it with `dict.get(key, 0.0)`. -/
structure ARes where
  status : String
  conf : Option ℚ
  deriving DecidableEq, Repr

/-- The three per-analyzer slots of the orchestrator result dictionary
(`clarity_analysis`, `media_analysis`, `context_analysis`); `none` models a
slot left at `None` because the analyzer was not scheduled or its task
resolved to an exception object. -/
structure Slots where
  clarity : Option ARes
  media : Option ARes
  context : Option ARes
  deriving DecidableEq, Repr

/-- The contribution of one analyzer slot to the `weighted_scores` list:
one entry when the slot is present with status `success`, holding that
analyzer confidence times its weight, nothing otherwise. -/
def scorePiece (w : ℚ) : Option ARes → List ℚ
  | some r => if r.status = "success" then [r.conf.getD 0 * w] else []
  | none => []

/-- The `weighted_scores` list built by `_calculate_overall_verdict`,
in clarity, media, context order. -/
def weightedScores (w : AnalysisWeight) (s : Slots) : List ℚ :=
  scorePiece w.clarity s.clarity ++ scorePiece w.media s.media ++
    scorePiece w.context s.context

/-- `overall_confidence = sum(weighted_scores) if weighted_scores else 0.0`. -/
def overallConfidence (w : AnalysisWeight) (s : Slots) : ℚ :=
  if weightedScores w s = [] then 0 else (weightedScores w s).sum

/-- The verdict-level cascade of `_calculate_overall_verdict`. -/
def verdictLevelOf (w : AnalysisWeight) (s : Slots) : VerdictLevel :=
  if weightedScores w s = [] then VerdictLevel.insufficientData
  else if overallConfidence w s ≥ 0.8 then VerdictLevel.highConfidence
  else if overallConfidence w s ≥ 0.6 then VerdictLevel.moderateConfidence
  else if overallConfidence w s ≥ 0.4 then VerdictLevel.lowConfidence
  else VerdictLevel.insufficientData

/-- The part of the dictionary returned by `_calculate_overall_verdict`
that the verified claims are about (the textual summary and the conflict
list are omitted; no claim mentions them). -/
structure VerdictData where
  confidence_score : ℚ
  verdict_level : VerdictLevel
  deriving DecidableEq, Repr

/-- `_calculate_overall_verdict`. -/
def calculateOverallVerdict (w : AnalysisWeight) (s : Slots) : VerdictData :=
  ⟨overallConfidence w s, verdictLevelOf w s⟩

/-- Python truthiness of an optional string: `None` and `""` are falsy. -/
def truthyStr : Option String → Bool
  | none => false
  | some s => !(s == "")

/-- The successful result of `analyze`: the populated result dictionary. -/
structure AnalyzeOk where
  text_claim : Option String
  media_path : Option String
  clarity_analysis : Option ARes
  media_analysis : Option ARes
  context_analysis : Option ARes
  confidence_score : ℚ
  verdict_level : VerdictLevel
  deriving DecidableEq, Repr

/-- `RealityPatchOrchestrator.analyze`.  The three analyzer parameters are
the results the scheduled agent coroutines would deposit in their slots; a
slot is only populated when the corresponding input is truthy (the code
only schedules clarity and context tasks for truthy text, and the media
task for a truthy media path).  The `ValueError` raised when both inputs
are falsy is caught by the surrounding `except` block and returned to the
caller as an error dictionary, modelled by `Except.error` holding the
message. -/
def analyze (textClaim mediaPath : Option String)
    (clarityRes contextRes mediaRes : Option ARes) : Except String AnalyzeOk :=
  if !truthyStr textClaim && !truthyStr mediaPath then
    Except.error "At least one of text_claim or media_path must be provided"
  else
    let s : Slots :=
      ⟨if truthyStr textClaim then clarityRes else none,
       if truthyStr mediaPath then mediaRes else none,
       if truthyStr textClaim then contextRes else none⟩
    let v := calculateOverallVerdict defaultWeights s
    Except.ok ⟨textClaim, mediaPath, s.clarity, s.media, s.context,
      v.confidence_score, v.verdict_level⟩

/-- One extracted claim as consumed by `_calculate_clarity_confidence`:
the four structural components, each read with `dict.get` and tested for
Python truthiness. -/
structure CClaim where
  subject : Option String
  predicate : Option String
  object : Option String
  quantifier : Option String
  deriving DecidableEq, Repr

/-- Python truthiness of a claim component (absent and empty are falsy). -/
def truthy : Option String → Bool
  | none => false
  | some s => !(s == "")

/-- The per-claim specificity score of `_calculate_clarity_confidence`:
`sum([has_subject * 0.3, has_predicate * 0.3, has_object * 0.3,
has_quantifier * 0.1])`. -/
def specificity (c : CClaim) : ℚ :=
  (if truthy c.subject then (0.3 : ℚ) else 0) +
    (if truthy c.predicate then (0.3 : ℚ) else 0) +
    (if truthy c.object then (0.3 : ℚ) else 0) +
    (if truthy c.quantifier then (0.1 : ℚ) else 0)

/-- `_calculate_clarity_confidence`. -/
def calculateClarityConfidence (claims : List CClaim) : ℚ :=
  if claims = [] then 0
  else
    let base := min ((claims.length : ℚ) * 0.2) 0.8
    let adj := (claims.map specificity).sum / (claims.length : ℚ)
    min (base + adj * 0.2) 1

/-! Spec-side definitions, written from the wording of the claims, to be
compared with the code-side definitions above. -/

/-- Spec-side contribution of one analyzer slot to the overall confidence:
the confidence times the weight when the analyzer completed with status
`success`, and zero otherwise. -/
def specContribution (w : ℚ) (slot : Option ARes) : ℚ :=
  match slot with
  | some r => if r.status = "success" then r.conf.getD 0 * w else 0
  | none => 0

/-- Spec-side presence indicator for a claim component. -/
def specPresence (o : Option String) : ℚ :=
  if truthy o then 1 else 0

/-- Spec-side structural completeness of one extracted claim:
`0.3 * presence subject + 0.3 * presence predicate + 0.3 * presence object
+ 0.1 * presence quantifier`. -/
def specCompleteness (c : CClaim) : ℚ :=
  0.3 * specPresence c.subject + 0.3 * specPresence c.predicate +
    0.3 * specPresence c.object + 0.1 * specPresence c.quantifier

/-- Decidable bound check used as the hypothesis of the range invariant:
an absent slot is fine, a present one must report a confidence in the unit
interval. -/
def slotOk : Option ARes → Bool
  | none => true
  | some r => decide (0 ≤ r.conf.getD 0) && decide (r.conf.getD 0 ≤ 1)

/-! Helper lemmas shared between the claim theorems. -/

theorem confidence_score_calc (w : AnalysisWeight) (s : Slots) :
    (calculateOverallVerdict w s).confidence_score = overallConfidence w s := rfl

theorem verdict_level_calc (w : AnalysisWeight) (s : Slots) :
    (calculateOverallVerdict w s).verdict_level = verdictLevelOf w s := rfl

theorem overallConfidence_eq_sum (w : AnalysisWeight) (s : Slots) :
    overallConfidence w s = (weightedScores w s).sum := by
  unfold overallConfidence
  split <;> simp_all

theorem scorePiece_sum_bounds (w : ℚ) (hw : 0 ≤ w) (slot : Option ARes)
    (h : slotOk slot = true) :
    0 ≤ (scorePiece w slot).sum ∧ (scorePiece w slot).sum ≤ w := by
  rcases slot with _ | r
  · exact ⟨by simp [scorePiece], by simpa [scorePiece] using hw⟩
  · simp only [slotOk, Bool.and_eq_true, decide_eq_true_eq] at h
    rcases h with ⟨h1, h2⟩
    simp only [scorePiece]
    split_ifs with hs
    · refine ⟨?_, ?_⟩ <;> simp <;> nlinarith
    · simpa using hw

theorem specificity_eq_specCompleteness (c : CClaim) :
    specificity c = specCompleteness c := by
  unfold specificity specCompleteness specPresence
  rcases h1 : truthy c.subject <;> rcases h2 : truthy c.predicate <;>
    rcases h3 : truthy c.object <;> rcases h4 : truthy c.quantifier <;>
    norm_num

/-- C1: calling `analyze` with neither text nor media yields the
validation error (the `ValueError` message surfaced through the error
dictionary), never a populated verdict. -/
theorem analyze_no_input_is_error
    (clarityRes contextRes mediaRes : Option ARes) :
    analyze none none clarityRes contextRes mediaRes =
      Except.error "At least one of text_claim or media_path must be provided" := by
  rfl

/-- C2: the overall confidence equals the sum over the successful slots of
confidence times weight (clarity 0.4, media 0.3, context 0.3), with no
renormalization; in the two-analyzer example (clarity 0.6, context 0.5,
no media) it equals 0.39. -/
theorem overall_confidence_is_weighted_sum :
    (∀ s : Slots,
      (calculateOverallVerdict defaultWeights s).confidence_score =
        specContribution 0.4 s.clarity + specContribution 0.3 s.media +
          specContribution 0.3 s.context) ∧
    (calculateOverallVerdict defaultWeights
        ⟨some ⟨"success", some 0.6⟩, none, some ⟨"success", some 0.5⟩⟩).confidence_score
      = 0.39 := by
  constructor
  · rintro ⟨c, m, x⟩
    rw [confidence_score_calc, overallConfidence_eq_sum]
    rcases c with _ | rc <;> rcases m with _ | rm <;> rcases x with _ | rx <;>
      simp [weightedScores, scorePiece, specContribution, defaultWeights] <;>
      split_ifs <;> simp <;> ring
  · rw [confidence_score_calc, overallConfidence_eq_sum]
    norm_num [weightedScores, scorePiece, defaultWeights]

/-- C3: the verdict level is determined by the overall confidence alone:
at least 0.8 gives High Confidence, at least 0.6 Moderate, at least 0.4
Low, and anything below (including the case where no analyzer ran, whose
confidence is 0) gives Insufficient Data. -/
theorem verdict_level_thresholds :
    (∀ s : Slots,
      (calculateOverallVerdict defaultWeights s).verdict_level =
        (if (calculateOverallVerdict defaultWeights s).confidence_score ≥ 0.8 then
          VerdictLevel.highConfidence
        else if (calculateOverallVerdict defaultWeights s).confidence_score ≥ 0.6 then
          VerdictLevel.moderateConfidence
        else if (calculateOverallVerdict defaultWeights s).confidence_score ≥ 0.4 then
          VerdictLevel.lowConfidence
        else VerdictLevel.insufficientData)) ∧
    (calculateOverallVerdict defaultWeights ⟨none, none, none⟩).verdict_level =
      VerdictLevel.insufficientData := by
  constructor
  · intro s
    rw [verdict_level_calc]
    unfold verdictLevelOf
    by_cases h : weightedScores defaultWeights s = []
    · have hc : (calculateOverallVerdict defaultWeights s).confidence_score = 0 := by
        rw [confidence_score_calc]
        unfold overallConfidence
        simp [h]
      rw [if_pos h, hc]
      norm_num
    · rw [if_neg h, confidence_score_calc]
  · rfl

/-- C4: for a non-empty list of extracted claims the clarity confidence is
`min (base + 0.2 * averageCompleteness) 1` with
`base = min (0.2 * numberOfClaims) 0.8` and the completeness of each claim
given by the 0.3 / 0.3 / 0.3 / 0.1 presence weighting. -/
theorem clarity_confidence_formula (claims : List CClaim) (h : claims ≠ []) :
    calculateClarityConfidence claims =
      min (min (0.2 * (claims.length : ℚ)) 0.8 +
        0.2 * ((claims.map specCompleteness).sum / (claims.length : ℚ))) 1 := by
  unfold calculateClarityConfidence
  rw [if_neg h]
  have hmap : claims.map specificity = claims.map specCompleteness :=
    List.map_congr_left fun c _ => specificity_eq_specCompleteness c
  rw [hmap]
  ring_nf

/-- Witness for C4 at a concrete one-claim input. -/
theorem clarity_confidence_formula_witness :
    ([(⟨some "sea", some "rises", some "fast", none⟩ : CClaim)] ≠ []) ∧
      calculateClarityConfidence [(⟨some "sea", some "rises", some "fast", none⟩ : CClaim)] =
        min (min (0.2 * ((1 : ℕ) : ℚ)) 0.8 +
          0.2 * (([(⟨some "sea", some "rises", some "fast", none⟩ : CClaim)].map
            specCompleteness).sum / ((1 : ℕ) : ℚ))) 1 :=
  ⟨by decide, by
    have h := clarity_confidence_formula
      [(⟨some "sea", some "rises", some "fast", none⟩ : CClaim)] (by decide)
    simpa using h⟩

/-- C5: when every present analyzer slot reports a confidence in the unit
interval, the aggregated confidence score also lies in the unit
interval. -/
theorem confidence_score_in_unit_interval (s : Slots)
    (hc : slotOk s.clarity = true) (hm : slotOk s.media = true)
    (hx : slotOk s.context = true) :
    0 ≤ (calculateOverallVerdict defaultWeights s).confidence_score ∧
      (calculateOverallVerdict defaultWeights s).confidence_score ≤ 1 := by
  rcases s with ⟨c, m, x⟩
  rw [confidence_score_calc, overallConfidence_eq_sum]
  have h1 := scorePiece_sum_bounds 0.4 (by norm_num) c hc
  have h2 := scorePiece_sum_bounds 0.3 (by norm_num) m hm
  have h3 := scorePiece_sum_bounds 0.3 (by norm_num) x hx
  simp only [weightedScores, defaultWeights, List.sum_append]
  constructor <;> nlinarith [h1.1, h1.2, h2.1, h2.2, h3.1, h3.2]

/-- Witness for C5 at a concrete slot assignment. -/
theorem confidence_score_in_unit_interval_witness :
    slotOk (some ⟨"success", some 0.9⟩) = true ∧
      slotOk (none : Option ARes) = true ∧
      slotOk (some ⟨"success", some 0.5⟩) = true ∧
      (0 ≤ (calculateOverallVerdict defaultWeights
          ⟨some ⟨"success", some 0.9⟩, none, some ⟨"success", some 0.5⟩⟩).confidence_score ∧
        (calculateOverallVerdict defaultWeights
          ⟨some ⟨"success", some 0.9⟩, none, some ⟨"success", some 0.5⟩⟩).confidence_score ≤ 1) :=
  ⟨by norm_num [slotOk], by norm_num [slotOk], by norm_num [slotOk],
    confidence_score_in_unit_interval
      ⟨some ⟨"success", some 0.9⟩, none, some ⟨"success", some 0.5⟩⟩
      (by norm_num [slotOk]) (by norm_num [slotOk]) (by norm_num [slotOk])⟩

/-- C10: the empty extracted-claim list short-circuits to confidence 0.0
before the average-completeness division is reached. -/
theorem clarity_confidence_empty_list :
    calculateClarityConfidence [] = 0 := by
  rfl

/-! ## The claim graph

Shallow embedding of `src/claim_graph.py`.  A `networkx.Graph` is a set of
nodes with attribute dictionaries plus a set of undirected edges with
attribute dictionaries; attribute dictionaries are modelled as association
lists over JSON-like values (insertion ordered, as Python dictionaries
are).  Node identifiers are strings throughout the repository
(`add_claim` keys nodes by `str(claim["id"])` and serialized node records
carry string ids), so the embedding keys nodes by `String`. -/

/-- JSON-like attribute values.  Numbers are modelled as reals because the
similarity weights written into edges come from the TF-IDF cosine
pipeline. -/
inductive J where
  | str : String → J
  | num : ℝ → J
  | arr : List J → J
  | obj : List (String × J) → J

/-- An attribute dictionary. -/
abbrev AttrList := List (String × J)

/-- The graph state: node list (id, attributes) and undirected edge list
(endpoint, endpoint, attributes), both in insertion order. -/
structure Graph where
  nodes : List (String × AttrList)
  edges : List (String × String × AttrList)

/-- The freshly constructed (or cleared) graph. -/
def emptyGraph : Graph := ⟨[], []⟩

/-- The node identifiers, in insertion order. -/
def Graph.nodeIds (g : Graph) : List String := g.nodes.map Prod.fst

/-- Set one key of an attribute dictionary, Python-dict style: overwrite
in place when present, append otherwise. -/
def setAttr (l : AttrList) (k : String) (v : J) : AttrList :=
  if l.any (fun p => p.1 == k) then
    l.map (fun p => if p.1 == k then (k, v) else p)
  else l ++ [(k, v)]

/-- `old.update(other)` on Python dictionaries. -/
def dictUpdate (old other : AttrList) : AttrList :=
  other.foldl (fun acc p => setAttr acc p.1 p.2) old

/-- `networkx.Graph.add_node`: create the node, or merge the attributes
into an existing node of the same id. -/
def addNode (g : Graph) (nid : String) (attrs : AttrList) : Graph :=
  if g.nodeIds.contains nid then
    { g with nodes := g.nodes.map (fun p => if p.1 == nid then (p.1, dictUpdate p.2 attrs) else p) }
  else { g with nodes := g.nodes ++ [(nid, attrs)] }

/-- `add_edge` implicitly creates missing endpoint nodes with empty
attributes. -/
def ensureNode (g : Graph) (x : String) : Graph :=
  if g.nodeIds.contains x then g else { g with nodes := g.nodes ++ [(x, [])] }

/-- Whether a stored edge joins the unordered pair of endpoints. -/
def edgeMatches (u v : String) (e : String × String × AttrList) : Bool :=
  (e.1 == u && e.2.1 == v) || (e.1 == v && e.2.1 == u)

/-- `networkx.Graph.add_edge`: create missing endpoints, then create the
undirected edge or merge attributes into the existing one. -/
def addEdge (g : Graph) (u v : String) (attrs : AttrList) : Graph :=
  let g1 := ensureNode (ensureNode g u) v
  if g1.edges.any (edgeMatches u v) then
    { g1 with edges := (g1.edges.map
        (fun e => if edgeMatches u v e then (e.1, e.2.1, dictUpdate e.2.2 attrs) else e)) }
  else { g1 with edges := g1.edges ++ [(u, v, attrs)] }

/-- `networkx` neighbors of a node: the opposite endpoints of all incident
edges. -/
def neighbors (g : Graph) (x : String) : Finset String :=
  g.edges.foldr (fun e acc =>
    if e.1 = x then insert e.2.1 acc
    else if e.2.1 = x then insert e.1 acc else acc) ∅

/-- One round of the frontier expansion of `get_connected_claims`:
`next_nodes = union of the neighbor sets of current_nodes`. -/
def frontierStep (g : Graph) (cur : Finset String) : Finset String :=
  cur.biUnion (fun v => neighbors g v)

/-- The loop of `get_connected_claims`: `max_depth` rounds, accumulating
every frontier into `connected_nodes` (the start node is never removed). -/
def connectedLoop (g : Graph) : ℕ → Finset String × Finset String → Finset String × Finset String
  | 0, st => st
  | k + 1, st => connectedLoop g k (st.1 ∪ frontierStep g st.2, frontierStep g st.2)

/-- `ClaimGraph.get_connected_claims`, restricted to the set of node
identifiers it returns (the code pairs each of them with the full node
attribute dictionary; Python set iteration fixes no order, so the result
is a set). -/
def getConnectedClaims (g : Graph) (cid : String) (maxDepth : ℕ) : Finset String :=
  if g.nodeIds.contains cid then (connectedLoop g maxDepth (∅, {cid})).1 else ∅

/-- `k`-fold frontier expansion, used to relate the loop to walks. -/
def iterStep (g : Graph) (cur : Finset String) : ℕ → Finset String
  | 0 => cur
  | k + 1 => frontierStep g (iterStep g cur k)

/-- Spec-side reachability: a walk of length exactly `k` through the
undirected edges, from `s` to the given node. -/
def walkFrom (g : Graph) (s : String) : ℕ → String → Prop
  | 0, v => v = s
  | k + 1, v => ∃ u, walkFrom g s k u ∧ v ∈ neighbors g u

/-- The spec example path graph: A adjacent to B, B adjacent to C, A not
adjacent to C (attribute dictionaries irrelevant to traversal). -/
def pathGraph : Graph :=
  ⟨[("A", []), ("B", []), ("C", [])], [("A", "B", []), ("B", "C", [])]⟩

theorem iterStep_shift (g : Graph) (cur : Finset String) (k : ℕ) :
    iterStep g (frontierStep g cur) k = iterStep g cur (k + 1) := by
  induction k with
  | zero => rfl
  | succ k ih => simp [iterStep, ih]

theorem connectedLoop_fst (g : Graph) :
    ∀ (d : ℕ) (conn cur : Finset String),
      (connectedLoop g d (conn, cur)).1 =
        conn ∪ (Finset.range d).biUnion (fun k => iterStep g cur (k + 1)) := by
  intro d
  induction d with
  | zero => intro conn cur; simp [connectedLoop]
  | succ d ih =>
    intro conn cur
    show (connectedLoop g d (conn ∪ frontierStep g cur, frontierStep g cur)).1 = _
    rw [ih]
    ext v
    simp only [Finset.mem_union, Finset.mem_biUnion, Finset.mem_range, iterStep_shift]
    constructor
    · rintro ((h | h) | ⟨k, hk, h⟩)
      · exact Or.inl h
      · exact Or.inr ⟨0, by omega, h⟩
      · exact Or.inr ⟨k + 1, by omega, h⟩
    · rintro (h | ⟨k, hk, h⟩)
      · exact Or.inl (Or.inl h)
      · rcases k with _ | k
        · exact Or.inl (Or.inr h)
        · exact Or.inr ⟨k, by omega, h⟩

theorem mem_iterStep (g : Graph) (s : String) (k : ℕ) :
    ∀ v, v ∈ iterStep g {s} k ↔ walkFrom g s k v := by
  induction k with
  | zero => intro v; simp [iterStep, walkFrom]
  | succ k ih =>
    intro v
    show v ∈ frontierStep g (iterStep g {s} k) ↔ _
    simp only [frontierStep, Finset.mem_biUnion, walkFrom]
    constructor
    · rintro ⟨u, hu, hv⟩
      exact ⟨u, (ih u).mp hu, hv⟩
    · rintro ⟨u, hu, hv⟩
      exact ⟨u, (ih u).mpr hu, hv⟩

/-- C6 (amended): `get_connected_claims` returns the set of nodes
reachable from the start by a walk of between 1 and `maxDepth` hops.  This
does not exclude the start node: any walk that returns to it (already any
single neighbor at depth 2) puts it in the result, so for the path A - B -
C depth 1 gives exactly the set holding B while depth 2 gives the set
holding A, B and C.  An unknown id returns the empty result. -/
theorem get_connected_claims_walk_characterization :
    (∀ (g : Graph) (s : String) (d : ℕ) (v : String), s ∈ g.nodeIds →
      (v ∈ getConnectedClaims g s d ↔ ∃ k, 1 ≤ k ∧ k ≤ d ∧ walkFrom g s k v)) ∧
    (∀ (g : Graph) (s : String) (d : ℕ), s ∉ g.nodeIds →
      getConnectedClaims g s d = ∅) ∧
    getConnectedClaims pathGraph "A" 1 = {"B"} ∧
    getConnectedClaims pathGraph "A" 2 = {"A", "B", "C"} := by
  refine ⟨?_, ?_, by decide, by decide⟩
  · intro g s d v hs
    unfold getConnectedClaims
    rw [if_pos (by simpa using hs)]
    rw [connectedLoop_fst]
    simp only [Finset.empty_union, Finset.mem_biUnion, Finset.mem_range, mem_iterStep]
    constructor
    · rintro ⟨k, hk, h⟩
      exact ⟨k + 1, by omega, by omega, h⟩
    · rintro ⟨k, hk1, hk2, h⟩
      rcases k with _ | k
      · omega
      · exact ⟨k, by omega, h⟩
  · intro g s d hs
    unfold getConnectedClaims
    rw [if_neg (by simpa using hs)]

/-- C6 counterexample: on the path A - B - C, the depth-2 query returns
the start node A itself, so the result is not the claimed set of B and
C. -/
theorem get_connected_claims_start_not_excluded :
    "A" ∈ getConnectedClaims pathGraph "A" 2 ∧
      getConnectedClaims pathGraph "A" 2 ≠ ({"B", "C"} : Finset String) := by
  decide

/-- Witness for the amended C6 theorem at the concrete path graph. -/
theorem get_connected_claims_walk_characterization_witness :
    "B" ∈ getConnectedClaims pathGraph "A" 1 :=
  (get_connected_claims_walk_characterization.1 pathGraph "A" 1 "B" (by decide)).mpr
    ⟨1, le_refl 1, le_refl 1, "A", rfl, by decide⟩

/-! ## Serialization (`to_json` / `from_json`)

`to_json` renders the graph as the JSON document
`obj [nodes, edges]`; `from_json` first clears the graph and then
repopulates it from the parsed document, raising a plain `KeyError` /
`TypeError` (the repository defines no `DeserializationError` class) as
soon as a required key is missing.  The embedding keeps the graph state
reached at the moment of the failure, because the Python method mutates
the instance in place. -/

/-- Dictionary lookup on a JSON value (`data[key]`), `none` models the
`KeyError` / `TypeError` raised on a missing key or a non-object. -/
def jLookup : J → String → Option J
  | J.obj l, k => (l.find? (fun p => p.1 == k)).map Prod.snd
  | _, _ => none

/-- `dict.pop(key)`: the value and the dictionary without the key (keys of
parsed JSON dictionaries are unique). -/
def popKey (l : List (String × J)) (k : String) : Option (J × List (String × J)) :=
  match l.find? (fun p => p.1 == k) with
  | some p => some (p.2, l.filter (fun q => !(q.1 == k)))
  | none => none

/-- One serialized node record: the id merged with the attributes. -/
def nodeToJson (p : String × AttrList) : J := J.obj (("id", J.str p.1) :: p.2)

/-- One serialized edge record: endpoints merged with the attributes. -/
def edgeToJson (e : String × String × AttrList) : J :=
  J.obj (("source", J.str e.1) :: ("target", J.str e.2.1) :: e.2.2)

/-- `ClaimGraph.to_json` (modelled at the level of the parsed document;
`json.dumps` of this value is injective on it). -/
def toJson (g : Graph) : J :=
  J.obj [("nodes", J.arr (g.nodes.map nodeToJson)),
         ("edges", J.arr (g.edges.map edgeToJson))]

/-- Outcome of `from_json`: a fully loaded graph, or the error message
together with the graph state left behind by the in-place mutation. -/
inductive LoadResult where
  | ok : Graph → LoadResult
  | err : String → Graph → LoadResult

/-- The node loop of `from_json`: each record must be a dictionary with an
`id` key (node identifiers are strings throughout this repository). -/
def loadNodes (g : Graph) : List J → LoadResult
  | [] => LoadResult.ok g
  | J.obj l :: rest =>
    match popKey l "id" with
    | some (J.str nid, attrs) => loadNodes (addNode g nid attrs) rest
    | some (_, _) => LoadResult.err "TypeError: non-string node id" g
    | none => LoadResult.err "KeyError: id" g
  | _ :: _ => LoadResult.err "AttributeError: pop on non-dict node" g

/-- The edge loop of `from_json`: each record must be a dictionary with
`source` and `target` keys. -/
def loadEdges (g : Graph) : List J → LoadResult
  | [] => LoadResult.ok g
  | J.obj l :: rest =>
    match popKey l "source" with
    | some (J.str u, l1) =>
      match popKey l1 "target" with
      | some (J.str v, attrs) => loadEdges (addEdge g u v attrs) rest
      | some (_, _) => LoadResult.err "TypeError: non-string edge target" g
      | none => LoadResult.err "KeyError: target" g
    | some (_, _) => LoadResult.err "TypeError: non-string edge source" g
    | none => LoadResult.err "KeyError: source" g
  | _ :: _ => LoadResult.err "AttributeError: pop on non-dict edge" g

/-- `ClaimGraph.from_json` on an already parsed document.  The method
clears the graph before reading `data["nodes"]`, so every failure past
parsing leaves the cleared (possibly partially repopulated) state, never
the original graph.  (A failure of `json.loads` itself happens before the
clear and leaves the graph untouched; it is not modelled here because the
document argument is the parsed value.) -/
def fromJson (_pre : Graph) (data : J) : LoadResult :=
  match jLookup data "nodes" with
  | none => LoadResult.err "KeyError: nodes" emptyGraph
  | some (J.arr nodeList) =>
    match loadNodes emptyGraph nodeList with
    | LoadResult.err m st => LoadResult.err m st
    | LoadResult.ok g1 =>
      match jLookup data "edges" with
      | none => LoadResult.err "KeyError: edges" g1
      | some (J.arr edgeList) => loadEdges g1 edgeList
      | some _ => LoadResult.err "TypeError: edges not iterable" g1
  | some _ => LoadResult.err "TypeError: nodes not iterable" emptyGraph

/-- Distinctness of two stored edges as unordered endpoint pairs. -/
abbrev edgeDistinct (e1 e2 : String × String × AttrList) : Prop :=
  edgeMatches e2.1 e2.2.1 e1 = false

/-- The representation invariants a `networkx`-backed `ClaimGraph` state
always satisfies: unique node ids, edges between present nodes, at most
one edge per unordered pair, and attribute dictionaries that do not use
the reserved serialization keys. -/
abbrev wfGraph (g : Graph) : Prop :=
  g.nodeIds.Nodup ∧
  (∀ p ∈ g.nodes, "id" ∉ p.2.map Prod.fst) ∧
  (∀ e ∈ g.edges, e.1 ∈ g.nodeIds ∧ e.2.1 ∈ g.nodeIds ∧
    "source" ∉ e.2.2.map Prod.fst ∧ "target" ∉ e.2.2.map Prod.fst) ∧
  g.edges.Pairwise edgeDistinct

theorem filter_ne_key (k : String) (l : List (String × J))
    (hk : k ∉ l.map Prod.fst) :
    l.filter (fun q => !(q.1 == k)) = l := by
  apply List.filter_eq_self.mpr
  intro a ha
  simp only [Bool.not_eq_true', beq_eq_false_iff_ne, ne_eq]
  intro h
  exact hk (by rw [← h]; exact List.mem_map_of_mem Prod.fst ha)

theorem popKey_cons (k : String) (v : J) (l : List (String × J))
    (hk : k ∉ l.map Prod.fst) :
    popKey ((k, v) :: l) k = some (v, l) := by
  unfold popKey
  rw [List.find?_cons_of_pos _ (by simp)]
  simp [filter_ne_key k l hk]

theorem addNode_fresh (g : Graph) (nid : String) (attrs : AttrList)
    (h : nid ∉ g.nodeIds) :
    addNode g nid attrs = ⟨g.nodes ++ [(nid, attrs)], g.edges⟩ := by
  unfold addNode
  rw [if_neg (by simpa using h)]

theorem ensureNode_present (g : Graph) (x : String) (h : x ∈ g.nodeIds) :
    ensureNode g x = g := by
  unfold ensureNode
  rw [if_pos (by simpa using h)]

theorem addEdge_fresh (g : Graph) (u v : String) (attrs : AttrList)
    (hu : u ∈ g.nodeIds) (hv : v ∈ g.nodeIds)
    (hnew : ∀ e ∈ g.edges, edgeMatches u v e = false) :
    addEdge g u v attrs = ⟨g.nodes, g.edges ++ [(u, v, attrs)]⟩ := by
  unfold addEdge
  rw [ensureNode_present g u hu, ensureNode_present g v hv]
  rw [if_neg (by simp only [List.any_eq_true, not_exists, not_and]; intro e he; simp [hnew e he])]

theorem loadNodes_append (rest : List (String × AttrList)) :
    ∀ acc : Graph,
      (∀ p ∈ rest, p.1 ∉ acc.nodeIds) →
      (rest.map Prod.fst).Nodup →
      (∀ p ∈ rest, "id" ∉ p.2.map Prod.fst) →
      loadNodes acc (rest.map nodeToJson) =
        LoadResult.ok ⟨acc.nodes ++ rest, acc.edges⟩ := by
  induction rest with
  | nil => intro acc _ _ _; simp [loadNodes]
  | cons hd tl ih =>
    obtain ⟨nid, attrs⟩ := hd
    intro acc hdisj hnd hid
    have hnd' : (nid :: tl.map Prod.fst).Nodup := by simpa using hnd
    have hstep : loadNodes acc (J.obj (("id", J.str nid) :: attrs) :: tl.map nodeToJson) =
        loadNodes (addNode acc nid attrs) (tl.map nodeToJson) := by
      simp only [loadNodes, popKey_cons "id" (J.str nid) attrs (hid (nid, attrs) (by simp))]
    show loadNodes acc (J.obj (("id", J.str nid) :: attrs) :: tl.map nodeToJson) = _
    rw [hstep, addNode_fresh acc nid attrs (hdisj (nid, attrs) (by simp))]
    have hdisj2 : ∀ p ∈ tl, p.1 ∉ (Graph.mk (acc.nodes ++ [(nid, attrs)]) acc.edges).nodeIds := by
      intro p hp
      have h1 : p.1 ∉ acc.nodeIds := hdisj p (List.mem_cons_of_mem _ hp)
      have h2 : p.1 ≠ nid := fun hh =>
        (List.nodup_cons.mp hnd').1 (hh ▸ List.mem_map_of_mem Prod.fst hp)
      simp only [Graph.nodeIds, List.map_append, List.map_cons, List.map_nil,
        List.mem_append, List.mem_singleton, not_or] at h1 ⊢
      exact ⟨h1, h2⟩
    rw [ih _ hdisj2 (List.nodup_cons.mp hnd').2
      (fun p hp => hid p (List.mem_cons_of_mem _ hp))]
    simp [List.append_assoc]

theorem loadEdges_append (rest : List (String × String × AttrList)) :
    ∀ acc : Graph,
      (∀ e ∈ rest, e.1 ∈ acc.nodeIds ∧ e.2.1 ∈ acc.nodeIds) →
      (∀ e ∈ rest, "source" ∉ e.2.2.map Prod.fst ∧ "target" ∉ e.2.2.map Prod.fst) →
      (∀ e ∈ rest, ∀ e0 ∈ acc.edges, edgeMatches e.1 e.2.1 e0 = false) →
      rest.Pairwise edgeDistinct →
      loadEdges acc (rest.map edgeToJson) =
        LoadResult.ok ⟨acc.nodes, acc.edges ++ rest⟩ := by
  induction rest with
  | nil => intro acc _ _ _ _; simp [loadEdges]
  | cons hd tl ih =>
    obtain ⟨u, v, attrs⟩ := hd
    intro acc hmem hkeys hnew hpw
    have hk := hkeys (u, v, attrs) (by simp)
    have hsrc : "source" ∉ (("target", J.str v) :: attrs).map Prod.fst := by
      simp only [List.map_cons, List.mem_cons, not_or]
      exact ⟨by decide, hk.1⟩
    have hstep : loadEdges acc
        (J.obj (("source", J.str u) :: ("target", J.str v) :: attrs) :: tl.map edgeToJson) =
        loadEdges (addEdge acc u v attrs) (tl.map edgeToJson) := by
      simp only [loadEdges,
        popKey_cons "source" (J.str u) (("target", J.str v) :: attrs) hsrc,
        popKey_cons "target" (J.str v) attrs hk.2]
    have hm := hmem (u, v, attrs) (by simp)
    show loadEdges acc
      (J.obj (("source", J.str u) :: ("target", J.str v) :: attrs) :: tl.map edgeToJson) = _
    rw [hstep,
      addEdge_fresh acc u v attrs hm.1 hm.2 (fun e0 he0 => hnew (u, v, attrs) (by simp) e0 he0)]
    have hnew2 : ∀ e ∈ tl, ∀ e0 ∈ acc.edges ++ [(u, v, attrs)],
        edgeMatches e.1 e.2.1 e0 = false := by
      intro e he e0 he0
      rcases List.mem_append.mp he0 with h0 | h0
      · exact hnew e (List.mem_cons_of_mem _ he) e0 h0
      · have hrel := List.rel_of_pairwise_cons hpw he
        simp only [List.mem_singleton] at h0
        rw [h0]
        exact hrel
    rw [ih ⟨acc.nodes, acc.edges ++ [(u, v, attrs)]⟩
      (fun e he => hmem e (List.mem_cons_of_mem _ he))
      (fun e he => hkeys e (List.mem_cons_of_mem _ he))
      hnew2 (List.pairwise_cons.mp hpw).2]
    simp [List.append_assoc]

/-- C7: the serialization round trip restores the graph exactly: the same
node list with all attributes and the same edge list with endpoints,
weight and type attributes, under the representation invariants any
`ClaimGraph` state satisfies (unique node ids, edges between present
nodes, one edge per unordered pair, no reserved attribute keys). -/
theorem jLookup_toJson_nodes (g : Graph) :
    jLookup (toJson g) "nodes" = some (J.arr (g.nodes.map nodeToJson)) := by
  simp [jLookup, toJson]

theorem jLookup_toJson_edges (g : Graph) :
    jLookup (toJson g) "edges" = some (J.arr (g.edges.map edgeToJson)) := by
  have hne : (("nodes" : String) == "edges") = false := by decide
  simp [jLookup, toJson, List.find?, hne]

theorem from_json_to_json_roundtrip (g0 g : Graph) (h : wfGraph g) :
    fromJson g0 (toJson g) = LoadResult.ok g := by
  obtain ⟨hnd, hid, hedge, hpw⟩ := h
  have hn := loadNodes_append g.nodes emptyGraph
    (by simp [emptyGraph, Graph.nodeIds]) hnd hid
  have hsimpl : (Graph.mk (emptyGraph.nodes ++ g.nodes) emptyGraph.edges) =
      Graph.mk g.nodes [] := by
    simp [emptyGraph]
  rw [hsimpl] at hn
  have he := loadEdges_append g.edges (Graph.mk g.nodes [])
    (fun e hee => ⟨(hedge e hee).1, (hedge e hee).2.1⟩)
    (fun e hee => ⟨(hedge e hee).2.2.1, (hedge e hee).2.2.2⟩)
    (by simp) hpw
  unfold fromJson
  simp only [jLookup_toJson_nodes, jLookup_toJson_edges, hn, he]
  rfl

/-- Concrete well-formed graph used as the round-trip witness. -/
def rtGraph : Graph :=
  ⟨[("n1", [("text", J.str "alpha"), ("confidence", J.num 0.7)]),
    ("n2", [("text", J.str "beta")])],
   [("n1", "n2", [("weight", J.num 0.9), ("type", J.str "similarity")])]⟩

/-- Witness for C7 at a concrete two-node, one-edge graph carrying weight
and type attributes. -/
theorem from_json_to_json_roundtrip_witness :
    wfGraph rtGraph ∧ fromJson emptyGraph (toJson rtGraph) = LoadResult.ok rtGraph :=
  ⟨by constructor
      · decide
      · refine ⟨?_, ?_, ?_⟩ <;> simp [rtGraph, Graph.nodeIds],
   from_json_to_json_roundtrip emptyGraph rtGraph
     (by constructor
         · decide
         · refine ⟨?_, ?_, ?_⟩ <;> simp [rtGraph, Graph.nodeIds])⟩

/-- Graph holding one claim node, used to exhibit the destroyed state. -/
def gX : Graph := ⟨[("X", [("text", J.str "stored claim")])], []⟩

/-- C8 counterexample: a parseable but structurally corrupt document (an
object with no `nodes` key) makes `from_json` fail, but the graph has
already been cleared, so the state after the call differs from the state
before it — deserialization is not all-or-nothing on the original
state. -/
theorem from_json_corrupt_doc_mutates_cex :
    fromJson gX (J.obj []) = LoadResult.err "KeyError: nodes" emptyGraph ∧
      gX ≠ emptyGraph := by
  constructor
  · rfl
  · intro h
    have hn : gX.nodes = emptyGraph.nodes := by rw [h]
    simp [gX, emptyGraph] at hn

/-- C8 (amended): a corrupt parsed document lacking the `nodes` key makes
`from_json` raise a plain `KeyError` (the repository defines no
`DeserializationError`), and the graph is left cleared rather than as it
was before the call; only a failure of the JSON text parse itself, which
happens before the clear, would leave the graph untouched. -/
theorem from_json_missing_nodes_clears (g : Graph) (data : J)
    (h : jLookup data "nodes" = none) :
    fromJson g data = LoadResult.err "KeyError: nodes" emptyGraph := by
  unfold fromJson
  rw [h]

/-- Witness for the amended C8 theorem at a concrete corrupt document. -/
theorem from_json_missing_nodes_clears_witness :
    jLookup (J.obj [("edges", J.arr [])]) "nodes" = none ∧
      fromJson pathGraph (J.obj [("edges", J.arr [])]) =
        LoadResult.err "KeyError: nodes" emptyGraph :=
  ⟨rfl, from_json_missing_nodes_clears pathGraph (J.obj [("edges", J.arr [])]) rfl⟩

/-! ## `add_claim` and the similarity edges

`_add_similarity_edges` vectorizes the corpus of claim texts with
`TfidfVectorizer(stop_words="english")` and links the new claim to every
existing node whose cosine similarity exceeds 0.3.  The text compared for
the NEW claim is the concatenation of its subject, predicate and object
(`claim.get("subject", "") ...`), while existing nodes contribute their
stored `text` attribute (the original `claim_text`).  The TF-IDF pipeline
is embedded over the reals: sklearn tokenization (lowercase, word runs of
at least two word characters, English stop words removed), raw term
frequency, smoothed inverse document frequency
`log((1 + n) / (1 + df)) + 1`, and cosine similarity of the resulting
vectors (the row normalization sklearn applies cancels inside the cosine).
The stop-word list below is the portion of sklearn's frozen English list
relevant to the corpora in this development; the theorems hold for any
stop list because they only compare token sequences. -/

/-- A word character of the sklearn token pattern (letters, digits,
underscore). -/
def isWordChar (c : Char) : Bool := c.isAlphanum || c == '_'

/-- ASCII lowercasing of one character. -/
def lowerChar (c : Char) : Char :=
  if 'A' ≤ c ∧ c ≤ 'Z' then Char.ofNat (c.toNat + 32) else c

/-- Maximal runs of word characters in a character stream (the second
argument accumulates the current run, reversed). -/
def runsAux : List Char → List Char → List (List Char)
  | [], cur => if cur.isEmpty then [] else [cur.reverse]
  | c :: rest, cur =>
    if isWordChar c then runsAux rest (c :: cur)
    else if cur.isEmpty then runsAux rest []
    else cur.reverse :: runsAux rest []

/-- The English stop words appearing in this development's corpora, from
sklearn's frozen list. -/
def sklearnStopWords : List String :=
  ["a", "about", "above", "after", "again", "all", "almost", "alone",
   "already", "also", "although", "always", "am", "among", "an", "and",
   "another", "any", "are", "around", "as", "at", "be", "because", "been",
   "before", "behind", "being", "below", "between", "both", "but", "by",
   "can", "cannot", "could", "do", "down", "during", "each", "either",
   "enough", "even", "ever", "every", "few", "for", "from", "further",
   "had", "has", "have", "he", "her", "here", "hers", "him", "his", "how",
   "if", "in", "into", "is", "it", "its", "itself", "many", "may", "me",
   "might", "more", "most", "much", "must", "my", "never", "no", "nor",
   "not", "nothing", "now", "of", "off", "often", "on", "once", "one",
   "only", "or", "other", "our", "ours", "out", "over", "own", "per",
   "rather", "same", "she", "should", "since", "so", "some", "such",
   "than", "that", "the", "their", "them", "then", "there", "these",
   "they", "this", "those", "through", "to", "too", "under", "until",
   "up", "upon", "us", "very", "was", "we", "well", "were", "what",
   "when", "where", "whether", "which", "while", "who", "whom", "why",
   "will", "with", "within", "without", "would", "yet", "you", "your"]

/-- The sklearn analyzer: lowercase, extract word runs of length at least
two, drop stop words. -/
def tokenize (s : String) : List String :=
  (((runsAux (s.data.map lowerChar) []).filter (fun r => 2 ≤ r.length)).map
    (fun r => String.mk r)).filter (fun t => !(sklearnStopWords.contains t))

/-- Raw term frequency of a term in a tokenized document. -/
def tf (d : List String) (t : String) : ℕ := d.count t

/-- Number of corpus documents containing the term. -/
def docFreq (corpus : List (List String)) (t : String) : ℕ :=
  (corpus.filter (fun d => d.contains t)).length

/-- Smoothed inverse document frequency, sklearn default
(`smooth_idf=True`): `log((1 + n) / (1 + df)) + 1`. -/
noncomputable def idf (corpus : List (List String)) (t : String) : ℝ :=
  Real.log ((1 + (corpus.length : ℝ)) / (1 + (docFreq corpus t : ℝ))) + 1

/-- The vocabulary extracted from the corpus (order irrelevant to the
sums below). -/
def vocab (corpus : List (List String)) : List String :=
  corpus.flatten.dedup

/-- Dot product of the raw TF-IDF vectors of two tokenized documents. -/
noncomputable def tfidfDot (corpus : List (List String)) (d1 d2 : List String) : ℝ :=
  ((vocab corpus).map (fun t =>
    ((tf d1 t : ℝ) * idf corpus t) * ((tf d2 t : ℝ) * idf corpus t))).sum

/-- Cosine similarity of two documents' TF-IDF vectors (the composition
of the vectorizer's row normalization with `cosine_similarity`; a zero
vector yields similarity 0, as in sklearn). -/
noncomputable def cosineSim (corpus : List (List String)) (d1 d2 : List String) : ℝ :=
  tfidfDot corpus d1 d2 /
    (Real.sqrt (tfidfDot corpus d1 d1) * Real.sqrt (tfidfDot corpus d2 d2))

/-- One claim dictionary as consumed by `ClaimGraph.add_claim` (the id is
already a string; absent keys modelled by `none`). -/
structure ClaimRec where
  id : String
  claim_text : String
  subject : Option String
  predicate : Option String
  object : Option String
  confidence : Option ℝ
  status : Option String
  created_at : Option String

/-- The node attribute dictionary written by `add_claim` (the `now`
argument stands for `datetime.now().isoformat()`). -/
def claimAttrs (c : ClaimRec) (now : String) : AttrList :=
  [("type", J.str "claim"), ("text", J.str c.claim_text),
   ("subject", J.str (c.subject.getD "")), ("predicate", J.str (c.predicate.getD "")),
   ("object", J.str (c.object.getD "")), ("confidence", J.num (c.confidence.getD 0)),
   ("status", J.str (c.status.getD "Unknown")),
   ("created_at", J.str (c.created_at.getD now))]

/-- The text `_add_similarity_edges` uses for the NEW claim:
`f"{subject} {predicate} {object}"` with empty-string defaults — not the
claim text. -/
def simText (c : ClaimRec) : String :=
  c.subject.getD "" ++ " " ++ c.predicate.getD "" ++ " " ++ c.object.getD ""

/-- The stored `text` attribute of a node (`data["text"]`; nodes created
by `add_claim` always carry it as a string). -/
def nodeTextOf (attrs : AttrList) : String :=
  match (attrs.find? (fun p => p.1 == "text")).map Prod.snd with
  | some (J.str s) => s
  | _ => ""

open Classical in
/-- `ClaimGraph._add_similarity_edges`: skip when fewer than two nodes,
otherwise score the new claim's subject-predicate-object text against
every other node's stored text over the joint corpus, and add an edge for
every score above the 0.3 threshold. -/
noncomputable def addSimilarityEdges (g : Graph) (cid : String) (c : ClaimRec) : Graph :=
  if g.nodes.length < 2 then g
  else
    let existing := (g.nodes.filter (fun p => !(p.1 == cid))).map
      (fun p => (p.1, nodeTextOf p.2))
    if existing.isEmpty then g
    else
      let corpus := existing.map (fun p => tokenize p.2) ++ [tokenize (simText c)]
      existing.foldl (fun acc p =>
        let score := cosineSim corpus (tokenize (simText c)) (tokenize p.2)
        if score > 0.3 then
          addEdge acc cid p.1 [("weight", J.num score), ("type", J.str "similarity")]
        else acc) g

/-- `ClaimGraph.add_claim`: insert the node with its attribute
dictionary, then link it to similar existing claims. -/
noncomputable def addClaim (g : Graph) (c : ClaimRec) (now : String) : Graph :=
  addSimilarityEdges (addNode g c.id (claimAttrs c now)) c.id c

theorem tfidfDot_nil_left (corpus : List (List String)) (d : List String) :
    tfidfDot corpus [] d = 0 := by
  unfold tfidfDot
  apply List.sum_eq_zero
  intro x hx
  rw [List.mem_map] at hx
  obtain ⟨t, _, rfl⟩ := hx
  simp [tf]

theorem cosineSim_nil_left (corpus : List (List String)) (d : List String) :
    cosineSim corpus [] d = 0 := by
  unfold cosineSim
  rw [tfidfDot_nil_left]
  simp

theorem idf_ge_one (corpus : List (List String)) (t : String) :
    1 ≤ idf corpus t := by
  unfold idf
  have hdf : docFreq corpus t ≤ corpus.length := List.length_filter_le _ _
  have hdfr : (docFreq corpus t : ℝ) ≤ (corpus.length : ℝ) := by exact_mod_cast hdf
  have h1 : (1 : ℝ) ≤ (1 + (corpus.length : ℝ)) / (1 + (docFreq corpus t : ℝ)) := by
    rw [le_div_iff₀ (by positivity)]
    linarith
  have h2 := Real.log_nonneg h1
  linarith

theorem tfidfDot_self_pos (corpus : List (List String)) (d : List String)
    (hd : d ∈ corpus) (hne : d ≠ []) :
    0 < tfidfDot corpus d d := by
  obtain ⟨t0, ht0⟩ := List.exists_mem_of_ne_nil d hne
  have hvocab : t0 ∈ vocab corpus := by
    unfold vocab
    rw [List.mem_dedup]
    exact List.mem_flatten.mpr ⟨d, hd, ht0⟩
  obtain ⟨l1, l2, hsplit⟩ := List.append_of_mem hvocab
  unfold tfidfDot
  rw [hsplit, List.map_append, List.sum_append, List.map_cons, List.sum_cons]
  have hidf := idf_ge_one corpus t0
  have htf : (1 : ℝ) ≤ (tf d t0 : ℝ) := by
    have hc : 0 < tf d t0 := List.count_pos_iff.mpr ht0
    exact_mod_cast hc
  have hx : (1 : ℝ) ≤ (tf d t0 : ℝ) * idf corpus t0 := by
    calc (1 : ℝ) = 1 * 1 := by norm_num
    _ ≤ (tf d t0 : ℝ) * idf corpus t0 := mul_le_mul htf hidf (by norm_num) (by linarith)
  have hterm : 0 < ((tf d t0 : ℝ) * idf corpus t0) * ((tf d t0 : ℝ) * idf corpus t0) :=
    mul_pos (by linarith) (by linarith)
  have hs1 : 0 ≤ (l1.map (fun t =>
      ((tf d t : ℝ) * idf corpus t) * ((tf d t : ℝ) * idf corpus t))).sum := by
    apply List.sum_nonneg
    intro x hx
    rw [List.mem_map] at hx
    obtain ⟨t, _, rfl⟩ := hx
    exact mul_self_nonneg _
  have hs2 : 0 ≤ (l2.map (fun t =>
      ((tf d t : ℝ) * idf corpus t) * ((tf d t : ℝ) * idf corpus t))).sum := by
    apply List.sum_nonneg
    intro x hx
    rw [List.mem_map] at hx
    obtain ⟨t, _, rfl⟩ := hx
    exact mul_self_nonneg _
  linarith

theorem cosineSim_self_one (corpus : List (List String)) (d : List String)
    (hd : d ∈ corpus) (hne : d ≠ []) :
    cosineSim corpus d d = 1 := by
  unfold cosineSim
  have hpos := tfidfDot_self_pos corpus d hd hne
  rw [Real.mul_self_sqrt hpos.le, div_self hpos.ne']

theorem nodeTextOf_claimAttrs (c : ClaimRec) (now : String) :
    nodeTextOf (claimAttrs c now) = c.claim_text := rfl

theorem addClaim_empty (c : ClaimRec) (now : String) :
    addClaim emptyGraph c now = Graph.mk [(c.id, claimAttrs c now)] [] := by
  unfold addClaim
  rw [addNode_fresh emptyGraph c.id (claimAttrs c now) (by simp [emptyGraph, Graph.nodeIds])]
  unfold addSimilarityEdges
  rw [if_pos (by simp [emptyGraph])]
  simp [emptyGraph]

open Classical in
theorem addClaim_second_edges (c1 c2 : ClaimRec) (now1 now2 : String)
    (hid : c2.id ≠ c1.id) :
    (addClaim (addClaim emptyGraph c1 now1) c2 now2).edges =
      (if cosineSim [tokenize c1.claim_text, tokenize (simText c2)]
            (tokenize (simText c2)) (tokenize c1.claim_text) > 0.3 then
        [(c2.id, c1.id,
          [("weight", J.num (cosineSim [tokenize c1.claim_text, tokenize (simText c2)]
              (tokenize (simText c2)) (tokenize c1.claim_text))),
           ("type", J.str "similarity")])]
      else []) := by
  rw [addClaim_empty]
  unfold addClaim
  rw [addNode_fresh (Graph.mk [(c1.id, claimAttrs c1 now1)] []) c2.id (claimAttrs c2 now2)
    (by simp only [Graph.nodeIds, List.map_cons, List.map_nil, List.mem_singleton]; exact hid)]
  unfold addSimilarityEdges
  rw [if_neg (by simp)]
  have hbeq1 : (c1.id == c2.id) = false := beq_eq_false_iff_ne.mpr (Ne.symm hid)
  have hfil : (([(c1.id, claimAttrs c1 now1), (c2.id, claimAttrs c2 now2)] :
      List (String × AttrList)).filter (fun p => !(p.1 == c2.id))) =
      [(c1.id, claimAttrs c1 now1)] := by
    simp [hbeq1]
  simp only [List.singleton_append, hfil, List.map_cons, List.map_nil, nodeTextOf_claimAttrs,
    List.isEmpty_cons, Bool.false_eq_true, if_false, List.foldl_cons, List.foldl_nil,
    List.cons_append, List.nil_append]
  split_ifs with hscore
  · rw [addEdge_fresh _ c2.id c1.id _
      (by simp [Graph.nodeIds]) (by simp [Graph.nodeIds]) (by simp)]
    rfl
  · rfl

/-- C9 (amended): a similarity edge of weight exactly 1.0 (which exceeds
the 0.3 threshold) is created between two inserted claims precisely when
the second claim's subject-predicate-object text — the text
`_add_similarity_edges` actually vectorizes, not its claim text —
tokenizes to the same non-empty token sequence as the first claim's
stored claim text. -/
theorem add_claim_matching_text_edge (c1 c2 : ClaimRec) (now1 now2 : String)
    (hT : tokenize (simText c2) = tokenize c1.claim_text)
    (hne : tokenize (simText c2) ≠ [])
    (hid : c2.id ≠ c1.id) :
    (addClaim (addClaim emptyGraph c1 now1) c2 now2).edges =
      [(c2.id, c1.id, [("weight", J.num 1), ("type", J.str "similarity")])] ∧
      (1 : ℝ) > 0.3 := by
  refine ⟨?_, by norm_num⟩
  rw [addClaim_second_edges c1 c2 now1 now2 hid, hT]
  have hone : cosineSim [tokenize c1.claim_text, tokenize c1.claim_text]
      (tokenize c1.claim_text) (tokenize c1.claim_text) = 1 :=
    cosineSim_self_one _ _ (by simp) (by rw [← hT]; exact hne)
  rw [hone, if_pos (by norm_num)]

/-- First counterexample claim: stored text matching its decomposition. -/
def cexClaim1 : ClaimRec :=
  ⟨"1", "cats chase mice", some "cats", some "chase", some "mice", none, none, some "t1"⟩

/-- Second counterexample claim: identical claim text, but no
subject/predicate/object decomposition, so the text the similarity step
vectorizes for it is a blank string. -/
def cexClaim2 : ClaimRec :=
  ⟨"2", "cats chase mice", none, none, none, none, none, some "t2"⟩

/-- C9 counterexample: two claims carrying identical claim text whose
insertion creates no edge at all — the similarity step vectorizes the new
claim's subject-predicate-object text, which here is blank, giving cosine
similarity 0 below the 0.3 threshold. -/
theorem identical_claim_text_no_edge_cex :
    cexClaim1.claim_text = cexClaim2.claim_text ∧
      (addClaim (addClaim emptyGraph cexClaim1 "t1") cexClaim2 "t2").edges = [] := by
  refine ⟨rfl, ?_⟩
  rw [addClaim_second_edges cexClaim1 cexClaim2 "t1" "t2" (by decide)]
  have htok : tokenize (simText cexClaim2) = [] := by decide
  rw [htok, cosineSim_nil_left]
  rw [if_neg (by norm_num)]

/-- Witness for the amended C9 theorem: two claims with the same fully
decomposed text, whose second insertion creates the weight-1 edge. -/
theorem add_claim_matching_text_edge_witness :
    tokenize (simText (ClaimRec.mk "2" "cats chase mice" (some "cats") (some "chase")
        (some "mice") none none (some "t2"))) =
      tokenize (ClaimRec.mk "1" "cats chase mice" (some "cats") (some "chase")
        (some "mice") none none (some "t1")).claim_text ∧
    tokenize (simText (ClaimRec.mk "2" "cats chase mice" (some "cats") (some "chase")
        (some "mice") none none (some "t2"))) ≠ [] ∧
    ((addClaim (addClaim emptyGraph
        (ClaimRec.mk "1" "cats chase mice" (some "cats") (some "chase") (some "mice")
          none none (some "t1")) "t1")
        (ClaimRec.mk "2" "cats chase mice" (some "cats") (some "chase") (some "mice")
          none none (some "t2")) "t2").edges =
      [("2", "1", [("weight", J.num 1), ("type", J.str "similarity")])] ∧
      (1 : ℝ) > 0.3) :=
  ⟨by decide, by decide,
    add_claim_matching_text_edge
      (ClaimRec.mk "1" "cats chase mice" (some "cats") (some "chase") (some "mice")
        none none (some "t1"))
      (ClaimRec.mk "2" "cats chase mice" (some "cats") (some "chase") (some "mice")
        none none (some "t2")) "t1" "t2" (by decide) (by decide) (by decide)⟩

end RealityPatch
